import Mathlib

/-!
Shallow embedding of the compliance-agents message broker, base agent and
memory manager (a2a_protocol.py, base_agent.py, memory_manager.py,
compliance_models.py).

Time is modelled as `Nat` (Python `datetime.now()` is passed in explicitly
as a `now` argument).  Python dict values (`Dict[str, Any]`) are modelled by
the inductive `PyVal`; a dict is an association list `PyDict`.  The broker's
`defaultdict` fields are modelled as total functions with default `[]`,
which is observationally the behaviour of `defaultdict(deque)` /
`defaultdict(list)`.  Nondeterministic `uuid4()` message ids are threaded in
as explicit `String` / `Nat → String` parameters; no modelled property
depends on their values.
-/

/-- A Python value, as far as the message payloads need. -/
inductive PyVal where
  | vStr (s : String)
  | vNat (n : Nat)
  | vBool (b : Bool)
  | vNone
  | vDict (d : List (String × PyVal))
  | vList (xs : List PyVal)

/-- A Python dict with string keys. -/
abbrev PyDict := List (String × PyVal)

/-- Python `d.get(k)`: `some` value or `none`. -/
def dict_get (k : String) : PyDict → Option PyVal
  | [] => none
  | (k', v) :: r => if k' = k then some v else dict_get k r

/-- Python `None`-or-value: used where `d.get(k)` flows into a dict value. -/
def opt_val : Option PyVal → PyVal
  | none => PyVal.vNone
  | some v => v

/-- `AgentStatus` enum from compliance_models.py. -/
inductive AgentStatus where
  | idle | active | busy | stopping | stopped | error
deriving DecidableEq

/-- The `.value` string of `AgentStatus`. -/
def status_value : AgentStatus → String
  | .idle => "idle"
  | .active => "active"
  | .busy => "busy"
  | .stopping => "stopping"
  | .stopped => "stopped"
  | .error => "error"

/-- `AgentMessage` pydantic model: the message envelope. -/
structure AgentMessage where
  message_id : String
  sender_id : String
  recipient_id : String
  message_type : String
  content : PyDict
  timestamp : Nat
  priority : Int
  expires_at : Option Nat

/-- The pydantic default for `priority` (`Field(default=1, ge=1, le=5)`). -/
def priority_default : Int := 1

/-- Validated construction of an `AgentMessage`: pydantic rejects a priority
outside `1..5` (`ge=1, le=5`). -/
def mk_agent_message (mid sender recipient mtype : String) (content : PyDict)
    (ts : Nat) (priority : Int) (expires : Option Nat) : Option AgentMessage :=
  if 1 ≤ priority ∧ priority ≤ 5 then
    some ⟨mid, sender, recipient, mtype, content, ts, priority, expires⟩
  else
    none

/-- Construction with the field defaults (`priority=1`, `expires_at=None`). -/
def mk_agent_message_default (mid sender recipient mtype : String)
    (content : PyDict) (ts : Nat) : Option AgentMessage :=
  mk_agent_message mid sender recipient mtype content ts priority_default none

/-- The `agent_info` record built by `A2AProtocol.register_agent`. -/
structure AgentInfo where
  agent_id : String
  name : String
  agent_type : String
  status : AgentStatus
  registered_at : Nat
  last_heartbeat : Nat

/-- The fields of an agent that `register_agent` reads
(`agent.agent_id`, `agent.name`, `agent.__class__.__name__.lower()`,
`agent.status`). -/
structure AgentRef where
  agent_id : String
  name : String
  agent_type : String
  status : AgentStatus

/-- Broker state of `A2AProtocol`. `agents` is an insertion-ordered dict
(association list with unique keys); `message_queues`, `subscriptions` and
`agent_types` are `defaultdict`s, modelled as total functions. -/
structure A2AState where
  agents : List (String × AgentInfo)
  message_queues : String → List AgentMessage
  message_history : List AgentMessage
  subscriptions : String → List String
  agent_types : String → List String

/-- The state `A2AProtocol.__init__` produces: everything empty. -/
def empty_a2a : A2AState :=
  ⟨[], fun _ => [], [], fun _ => [], fun _ => []⟩

/-- Python dict insertion `d[k] = v`: overwrite in place if the key exists,
else append (dicts preserve insertion order). -/
def dict_insert (k : String) (v : AgentInfo) :
    List (String × AgentInfo) → List (String × AgentInfo)
  | [] => [(k, v)]
  | (k', v') :: rest =>
      if k' = k then (k, v) :: rest else (k', v') :: dict_insert k v rest

/-- Python `k in d` for the agents dict. -/
def dict_contains (k : String) (l : List (String × AgentInfo)) : Bool :=
  l.any (fun p => p.fst == k)

/-- The key list of the agents dict (`self.agents.keys()`). -/
def dict_keys (l : List (String × AgentInfo)) : List String :=
  l.map Prod.fst

/-- Append to `message_history`, a `deque(maxlen=1000)`: the oldest entries
fall off the left once the length exceeds 1000. -/
def history_append (h : List AgentMessage) (m : AgentMessage) : List AgentMessage :=
  let h' := h ++ [m]
  if h'.length > 1000 then h'.drop (h'.length - 1000) else h'

/-- `A2AProtocol.register_agent`: build the info record, insert it into
`agents`, append the id to `agent_types[agent_type]`, return `True`. -/
def register_agent (now : Nat) (a : AgentRef) (s : A2AState) : Bool × A2AState :=
  let info : AgentInfo := ⟨a.agent_id, a.name, a.agent_type, a.status, now, now⟩
  (true,
   { s with
     agents := dict_insert a.agent_id info s.agents,
     agent_types := fun t =>
       if t = a.agent_type then s.agent_types t ++ [a.agent_id]
       else s.agent_types t })

/-- `A2AProtocol.send_message`: refuse (return `False`, state unchanged) when
the recipient is not registered; otherwise append the message to the
recipient's queue and to the history and return `True`. -/
def a2a_send_message (m : AgentMessage) (s : A2AState) : Bool × A2AState :=
  if dict_contains m.recipient_id s.agents then
    (true,
     { s with
       message_queues := fun a =>
         if a = m.recipient_id then s.message_queues a ++ [m]
         else s.message_queues a,
       message_history := history_append s.message_history m })
  else
    (false, s)

/-- `message.expires_at and datetime.now() > message.expires_at`. -/
def message_expired (now : Nat) (m : AgentMessage) : Bool :=
  match m.expires_at with
  | none => false
  | some t => now > t

/-- The body of the `for _ in range(min(limit, len(queue)))` loop of
`get_messages`: pop from the left `k` times, drop a popped message whose
expiry has elapsed (`continue`), collect the rest in order.  Returns the
collected messages and the remaining queue. -/
def poll_loop (now : Nat) : Nat → List AgentMessage → List AgentMessage × List AgentMessage
  | _, [] => ([], [])
  | 0, q => ([], q)
  | k + 1, m :: q =>
      let r := poll_loop now k q
      if message_expired now m then r else (m :: r.fst, r.snd)

/-- `A2AProtocol.get_messages`: scan `min(limit, len(queue))` entries from
the head of the recipient's queue. -/
def get_messages (now : Nat) (agent_id : String) (limit : Nat) (s : A2AState) :
    List AgentMessage × A2AState :=
  let q := s.message_queues agent_id
  let r := poll_loop now (min limit q.length) q
  (r.fst,
   { s with
     message_queues := fun a => if a = agent_id then r.snd else s.message_queues a })

/-- The `AgentMessage(...)` built for each broadcast target: type
`"broadcast"`, default priority 1, no expiry. -/
def mk_broadcast_message (mid : String) (now : Nat) (sender aid : String)
    (content : PyDict) : AgentMessage :=
  ⟨mid, sender, aid, "broadcast", content, now, 1, none⟩

/-- Python `list(set(xs))` dedups with unspecified order; modelled as keeping
the first occurrence of each element.  On a duplicate-free list (the only
case the source reaches with no type filter, since dict keys are unique)
this is the identity. -/
def remove_duplicates : List String → List String
  | [] => []
  | x :: xs => x :: remove_duplicates (xs.filter (fun y => !(y == x)))
termination_by l => l.length
decreasing_by
  simp only [List.length_cons]
  exact Nat.lt_succ_of_le (List.length_filter_le _ _)

/-- One iteration of the broadcast send loop: append `msg` to `aid`'s queue
and to the history (`self.message_queues[agent_id].append(...)`,
`self.message_history.append(...)`). -/
def broadcast_enqueue (msg : AgentMessage) (aid : String) (s : A2AState) : A2AState :=
  { s with
    message_queues := fun a =>
      if a = aid then s.message_queues a ++ [msg] else s.message_queues a,
    message_history := history_append s.message_history msg }

/-- The send loop of `broadcast_message`: for each target, construct a
broadcast message, append it to the target's queue and to the history, and
count it.  `ids i` supplies the `uuid4()` of the `i`-th message. -/
def broadcast_loop (ids : Nat → String) (now : Nat) (sender : String)
    (content : PyDict) : List String → Nat → A2AState → Nat × A2AState
  | [], _, s => (0, s)
  | aid :: rest, i, s =>
      let s' := broadcast_enqueue (mk_broadcast_message (ids i) now sender aid content) aid s
      let r := broadcast_loop ids now sender content rest (i + 1) s'
      (r.fst + 1, r.snd)

/-- `A2AProtocol.broadcast_message`: with a non-empty type filter (Python
`if agent_types:` is false on `None` and on `[]`), targets are the union of
the type lists; otherwise all registered agents except the sender.  Targets
are deduplicated, then each receives one broadcast message. -/
def broadcast_message (ids : Nat → String) (now : Nat) (sender_id : String)
    (content : PyDict) (types_filter : Option (List String)) (s : A2AState) :
    Nat × A2AState :=
  let target_agents :=
    match types_filter with
    | some (t :: ts) => ((t :: ts).map (fun ty => s.agent_types ty)).flatten
    | _ => (dict_keys s.agents).filter (fun aid => !(aid == sender_id))
  broadcast_loop ids now sender_id content (remove_duplicates target_agents) 0 s

/-! ## Memory manager (memory_manager.py) -/

/-- One entry of `MemoryManager.episodic_memory`, as built by
`store_episodic_memory`. -/
structure EpisodicEntry where
  id : Nat
  timestamp : Nat
  agent_id : String
  data : PyDict

/-- `MemoryManager._cleanup_old_memories`: keep only entries whose timestamp
is strictly after the cutoff (`datetime.fromisoformat(ts) > cutoff_date`). -/
def cleanup_old_memories (cutoff : Nat) (mem : List EpisodicEntry) :
    List EpisodicEntry :=
  mem.filter (fun e => cutoff < e.timestamp)

/-- `MemoryManager.store_episodic_memory`: build an entry with
`id = len(episodic_memory) + 1` and the current timestamp, append it, then
run the retention cleanup with `cutoff = now - MEMORY_RETENTION_DAYS`. -/
def store_episodic_memory (retention now : Nat) (agent_id : String)
    (data : PyDict) (mem : List EpisodicEntry) : List EpisodicEntry :=
  let entry : EpisodicEntry := ⟨mem.length + 1, now, agent_id, data⟩
  cleanup_old_memories (now - retention) (mem ++ [entry])

/-! ## Base agent (base_agent.py) -/

/-- The state of a `BaseAgent`.  Each instance owns its private broker
(`self.a2a_protocol = A2AProtocol()` in `__init__`) and its private memory
manager.  `agent_type` models `self.__class__.__name__.lower()` of the
concrete subclass. -/
structure BaseAgentState where
  agent_id : String
  name : String
  agent_type : String
  status : AgentStatus
  created_at : Nat
  last_activity : Nat
  episodic_memory : List EpisodicEntry
  a2a : A2AState
  current_task : Option PyDict
  task_history : List PyDict

/-- `BaseAgent.__init__`: idle status, fresh private broker, empty memory. -/
def init_base_agent (aid name atype : String) (now : Nat) : BaseAgentState :=
  ⟨aid, name, atype, AgentStatus.idle, now, now, [], empty_a2a, none, []⟩

/-- The registration view of an agent (what `register_agent` reads). -/
def self_ref (st : BaseAgentState) : AgentRef :=
  ⟨st.agent_id, st.name, st.agent_type, st.status⟩

/-- `BaseAgent.start`: set status to `ACTIVE`, then register with the
agent's own private broker.  (The subclass `initialize` hook and the
spawned message loop perform no state change modelled here.) -/
def agent_start (now : Nat) (st : BaseAgentState) : BaseAgentState :=
  let st1 := { st with status := AgentStatus.active }
  { st1 with a2a := (register_agent now (self_ref st1) st1.a2a).snd }

/-- The envelope `BaseAgent.send_message` constructs: always
`message_type="task"`, default priority 1, no expiry. -/
def agent_send_envelope (mid : String) (now : Nat) (sender recipient : String)
    (content : PyDict) : AgentMessage :=
  ⟨mid, sender, recipient, "task", content, now, 1, none⟩

/-- `BaseAgent.send_message`: build the `"task"` envelope and hand it to the
agent's own broker. -/
def agent_send_message (mid : String) (now : Nat) (recipient : String)
    (content : PyDict) (st : BaseAgentState) : Bool × BaseAgentState :=
  let r := a2a_send_message (agent_send_envelope mid now st.agent_id recipient content) st.a2a
  (r.fst, { st with a2a := r.snd })

/-- The `task_result` reply dict built on successful task processing. -/
def task_result_content (msg : AgentMessage) (result : PyDict) : PyDict :=
  [("type", PyVal.vStr "task_result"),
   ("task_id", opt_val (dict_get "task_id" msg.content)),
   ("result", PyVal.vDict result),
   ("status", PyVal.vStr "completed")]

/-- The `task_error` reply dict built when `process_task` raises. -/
def task_error_content (msg : AgentMessage) (err : String) : PyDict :=
  [("type", PyVal.vStr "task_error"),
   ("task_id", opt_val (dict_get "task_id" msg.content)),
   ("error", PyVal.vStr err),
   ("status", PyVal.vStr "failed")]

/-- The episodic record stored after a completed task. -/
def completed_event_data (now : Nat) (msg : AgentMessage) (result : PyDict) : PyDict :=
  [("event", PyVal.vStr "task_completed"),
   ("task", PyVal.vDict msg.content),
   ("result", PyVal.vDict result),
   ("timestamp", PyVal.vNat now)]

/-- `BaseAgent._handle_task_message`.  `h` is the subclass `process_task`
hook: `Except.ok` models a normal return, `Except.error` a raised
exception.  If the agent is not active the message is ignored.  Otherwise:
status becomes `BUSY` and `current_task` is set; on success a `task_result`
reply is sent to the sender and the completion is stored in episodic
memory; on exception a `task_error` reply is sent; the `finally` block
always clears `current_task` and restores status `ACTIVE`. -/
def handle_task_message (h : PyDict → Except String PyDict) (mid : String)
    (now retention : Nat) (msg : AgentMessage) (st : BaseAgentState) :
    BaseAgentState :=
  if st.status ≠ AgentStatus.active then st
  else
    let st1 := { st with status := AgentStatus.busy, current_task := some msg.content }
    let st2 :=
      match h msg.content with
      | Except.ok result =>
          let stS := (agent_send_message mid now msg.sender_id (task_result_content msg result) st1).snd
          let mem' := store_episodic_memory retention now stS.agent_id (completed_event_data now msg result) stS.episodic_memory
          { stS with episodic_memory := mem' }
      | Except.error e =>
          (agent_send_message mid now msg.sender_id (task_error_content msg e) st1).snd
    { st2 with current_task := none, status := AgentStatus.active }

/-- Python `None`-or-dict for the `current_task` field of a status reply. -/
def opt_dict : Option PyDict → PyVal
  | none => PyVal.vNone
  | some d => PyVal.vDict d

/-- The `status_info` dict of `_handle_status_message`. -/
def status_info_content (st : BaseAgentState) : PyDict :=
  [("agent_id", PyVal.vStr st.agent_id),
   ("name", PyVal.vStr st.name),
   ("status", PyVal.vStr (status_value st.status)),
   ("last_activity", PyVal.vNat st.last_activity),
   ("current_task", opt_dict st.current_task)]

/-- `BaseAgent._handle_status_message`: reply to the sender with a
`status_response` payload, via `send_message`. -/
def handle_status_message (mid : String) (now : Nat) (msg : AgentMessage)
    (st : BaseAgentState) : BaseAgentState :=
  (agent_send_message mid now msg.sender_id
    [("type", PyVal.vStr "status_response"),
     ("status", PyVal.vDict (status_info_content st))] st).snd

/-! ## Helper lemmas about the broker operations -/

/-- The poll loop is take-filter-drop: it examines the first `k` entries,
returns the non-expired ones in order, and leaves the rest queued. -/
theorem poll_loop_eq (now : Nat) (k : Nat) (q : List AgentMessage) :
    poll_loop now k q
      = ((q.take k).filter (fun m => !message_expired now m), q.drop k) := by
  induction q generalizing k with
  | nil => cases k <;> simp [poll_loop]
  | cons m q ih =>
      cases k with
      | zero => simp [poll_loop]
      | succ k =>
          simp only [poll_loop, ih, List.take_succ_cons, List.drop_succ_cons,
            List.filter_cons]
          cases hm : message_expired now m <;> simp [hm]

/-- `send_message` never changes the agents dict. -/
theorem send_agents_unchanged (m : AgentMessage) (s : A2AState) :
    (a2a_send_message m s).snd.agents = s.agents := by
  unfold a2a_send_message
  split <;> rfl

/-- A successful `send_message` appends to the recipient's queue. -/
theorem send_queue_registered (m : AgentMessage) (s : A2AState)
    (h : dict_contains m.recipient_id s.agents = true) :
    (a2a_send_message m s).fst = true
    ∧ (a2a_send_message m s).snd.message_queues m.recipient_id
        = s.message_queues m.recipient_id ++ [m] := by
  unfold a2a_send_message
  rw [if_pos h]
  exact ⟨rfl, by simp⟩

/-- `send_message` leaves every other queue unchanged. -/
theorem send_queue_other (m : AgentMessage) (s : A2AState) (a : String)
    (h : a ≠ m.recipient_id) :
    (a2a_send_message m s).snd.message_queues a = s.message_queues a := by
  unfold a2a_send_message
  split
  · simp [h]
  · rfl

/-! ## Claims about polling (C4, C1, C5) -/

/-- C4: a poll with limit `L` examines exactly `min(L, len(queue))` entries
from the head of the queue, removes all of them from the queue, returns the
non-expired ones among them in order, and never returns a message whose
expiry lies in the past at poll time. -/
theorem c4_poll_take_filter_drop (now : Nat) (aid : String) (limit : Nat)
    (s : A2AState) :
    (get_messages now aid limit s).fst
      = ((s.message_queues aid).take (min limit (s.message_queues aid).length)).filter
          (fun m => !message_expired now m)
    ∧ (get_messages now aid limit s).snd.message_queues aid
      = (s.message_queues aid).drop (min limit (s.message_queues aid).length)
    ∧ ∀ m ∈ (get_messages now aid limit s).fst, message_expired now m = false := by
  have h := poll_loop_eq now (min limit (s.message_queues aid).length)
    (s.message_queues aid)
  refine ⟨by simp [get_messages, h], by simp [get_messages, h], ?_⟩
  intro m hm
  simp only [get_messages, h, List.mem_filter] at hm
  simpa using hm.2

/-- C4 witness: the characterization at a concrete state. -/
theorem c4_poll_take_filter_drop_witness :
    (get_messages 7 "a1" 5 empty_a2a).fst
      = (((empty_a2a.message_queues "a1").take
            (min 5 (empty_a2a.message_queues "a1").length)).filter
          (fun m => !message_expired 7 m))
    ∧ (get_messages 7 "a1" 5 empty_a2a).snd.message_queues "a1"
      = (empty_a2a.message_queues "a1").drop
          (min 5 (empty_a2a.message_queues "a1").length)
    ∧ ∀ m ∈ (get_messages 7 "a1" 5 empty_a2a).fst, message_expired 7 m = false :=
  c4_poll_take_filter_drop 7 "a1" 5 empty_a2a

/-- C1 (amended): when the recipient is registered, the message has not
expired by poll time, and the poll limit covers the queue, `send` followed
by `get_messages` returns a list containing the very message that was sent
(hence with identical id and payload). -/
theorem c1_send_then_poll_roundtrip (now limit : Nat) (s : A2AState)
    (msg : AgentMessage)
    (hreg : dict_contains msg.recipient_id s.agents = true)
    (hexp : message_expired now msg = false)
    (hlim : (s.message_queues msg.recipient_id).length + 1 ≤ limit) :
    (a2a_send_message msg s).fst = true
    ∧ msg ∈ (get_messages now msg.recipient_id limit (a2a_send_message msg s).snd).fst := by
  obtain ⟨hf, hq⟩ := send_queue_registered msg s hreg
  refine ⟨hf, ?_⟩
  have hlen : ((a2a_send_message msg s).snd.message_queues msg.recipient_id).length
      = (s.message_queues msg.recipient_id).length + 1 := by
    rw [hq]; simp
  have hmin : min limit ((a2a_send_message msg s).snd.message_queues msg.recipient_id).length
      = ((a2a_send_message msg s).snd.message_queues msg.recipient_id).length := by
    rw [hlen]
    exact Nat.min_eq_right hlim
  simp only [get_messages, poll_loop_eq, hmin, List.take_length]
  refine List.mem_filter.mpr ⟨?_, by simp [hexp]⟩
  rw [hq]
  simp

/-- C1 witness: the round trip at a concrete registered agent and message. -/
theorem c1_send_then_poll_roundtrip_witness :
    (dict_contains "a1"
        (register_agent 0 ⟨"a1", "A", "baseagent", AgentStatus.active⟩ empty_a2a).snd.agents
      = true)
    ∧ (message_expired 3 ⟨"m1", "a0", "a1", "task", [], 3, 1, none⟩ = false)
    ∧ (((register_agent 0 ⟨"a1", "A", "baseagent", AgentStatus.active⟩ empty_a2a).snd.message_queues "a1").length + 1 ≤ 1)
    ∧ ((a2a_send_message ⟨"m1", "a0", "a1", "task", [], 3, 1, none⟩
          (register_agent 0 ⟨"a1", "A", "baseagent", AgentStatus.active⟩ empty_a2a).snd).fst = true
       ∧ (⟨"m1", "a0", "a1", "task", [], 3, 1, none⟩ : AgentMessage) ∈
          (get_messages 3 "a1" 1
            (a2a_send_message ⟨"m1", "a0", "a1", "task", [], 3, 1, none⟩
              (register_agent 0 ⟨"a1", "A", "baseagent", AgentStatus.active⟩ empty_a2a).snd).snd).fst) :=
  ⟨rfl, rfl, by decide,
   c1_send_then_poll_roundtrip 3 1
     (register_agent 0 ⟨"a1", "A", "baseagent", AgentStatus.active⟩ empty_a2a).snd
     ⟨"m1", "a0", "a1", "task", [], 3, 1, none⟩ rfl rfl (by decide)⟩

/-- C1 counterexample to the claim as stated: an already-expired message is
accepted by `send` (returns `True`) but a subsequent poll with positive
limit returns the empty list, which does not contain it. -/
theorem c1_counterexample :
    (a2a_send_message ⟨"m1", "a0", "a1", "task", [], 0, 1, some 5⟩
        (register_agent 0 ⟨"a1", "A", "baseagent", AgentStatus.active⟩ empty_a2a).snd).fst
      = true
    ∧ (get_messages 10 "a1" 1
        (a2a_send_message ⟨"m1", "a0", "a1", "task", [], 0, 1, some 5⟩
          (register_agent 0 ⟨"a1", "A", "baseagent", AgentStatus.active⟩ empty_a2a).snd).snd).fst
      = [] :=
  ⟨rfl, rfl⟩

/-- C5: three messages sent to a registered recipient with empty mailbox, in
order and without expiry, are returned by a poll with limit at least 3 as
exactly `[M1, M2, M3]`: delivery order equals send order. -/
theorem c5_fifo_order (now : Nat) (rid : String) (limit : Nat) (s : A2AState)
    (m1 m2 m3 : AgentMessage)
    (hreg : dict_contains rid s.agents = true)
    (hq0 : s.message_queues rid = [])
    (hr1 : m1.recipient_id = rid) (hr2 : m2.recipient_id = rid)
    (hr3 : m3.recipient_id = rid)
    (he1 : m1.expires_at = none) (he2 : m2.expires_at = none)
    (he3 : m3.expires_at = none)
    (hlim : 3 ≤ limit) :
    (get_messages now rid limit
      (a2a_send_message m3 (a2a_send_message m2 (a2a_send_message m1 s).snd).snd).snd).fst
      = [m1, m2, m3] := by
  have ha1 : (a2a_send_message m1 s).snd.agents = s.agents :=
    send_agents_unchanged m1 s
  have ha2 : (a2a_send_message m2 (a2a_send_message m1 s).snd).snd.agents = s.agents := by
    rw [send_agents_unchanged, ha1]
  have hc1 : dict_contains m1.recipient_id s.agents = true := by rw [hr1]; exact hreg
  have hq1 : (a2a_send_message m1 s).snd.message_queues rid = [m1] := by
    have h := (send_queue_registered m1 s hc1).2
    rw [hr1] at h
    rw [h, hq0]
    rfl
  have hc2 : dict_contains m2.recipient_id (a2a_send_message m1 s).snd.agents = true := by
    rw [hr2, ha1]; exact hreg
  have hq2 : (a2a_send_message m2 (a2a_send_message m1 s).snd).snd.message_queues rid
      = [m1, m2] := by
    have h := (send_queue_registered m2 (a2a_send_message m1 s).snd hc2).2
    rw [hr2] at h
    rw [h, hq1]
    rfl
  have hc3 : dict_contains m3.recipient_id
      (a2a_send_message m2 (a2a_send_message m1 s).snd).snd.agents = true := by
    rw [hr3, ha2]; exact hreg
  have hq3 : (a2a_send_message m3 (a2a_send_message m2 (a2a_send_message m1 s).snd).snd).snd.message_queues rid
      = [m1, m2, m3] := by
    have h := (send_queue_registered m3
      (a2a_send_message m2 (a2a_send_message m1 s).snd).snd hc3).2
    rw [hr3] at h
    rw [h, hq2]
    rfl
  have hmin : min limit (3 : Nat) = 3 := Nat.min_eq_right hlim
  simp only [get_messages, poll_loop_eq, hq3, List.length_cons, List.length_nil]
  norm_num [hmin, List.filter, message_expired, he1, he2, he3]

/-- C5 witness: the FIFO property at a concrete broker and three concrete
messages. -/
theorem c5_fifo_order_witness :
    (get_messages 9 "a1" 3
      (a2a_send_message ⟨"m3", "a0", "a1", "task", [], 2, 1, none⟩
        (a2a_send_message ⟨"m2", "a0", "a1", "task", [], 1, 1, none⟩
          (a2a_send_message ⟨"m1", "a0", "a1", "task", [], 0, 1, none⟩
            (register_agent 0 ⟨"a1", "A", "baseagent", AgentStatus.active⟩ empty_a2a).snd).snd).snd).snd).fst
      = [⟨"m1", "a0", "a1", "task", [], 0, 1, none⟩,
         ⟨"m2", "a0", "a1", "task", [], 1, 1, none⟩,
         ⟨"m3", "a0", "a1", "task", [], 2, 1, none⟩] :=
  c5_fifo_order 9 "a1" 3
    (register_agent 0 ⟨"a1", "A", "baseagent", AgentStatus.active⟩ empty_a2a).snd
    ⟨"m1", "a0", "a1", "task", [], 0, 1, none⟩
    ⟨"m2", "a0", "a1", "task", [], 1, 1, none⟩
    ⟨"m3", "a0", "a1", "task", [], 2, 1, none⟩
    rfl rfl rfl rfl rfl rfl rfl rfl (by decide)

/-! ## Claims about the base agent (C2, C3) -/

/-- C2: two `BaseAgent`s own disjoint private brokers.  An agent `A`
constructed fresh and started knows only itself; sending to any other
agent's id — in particular a started agent `B`'s id, whose registration
lives in `B`'s own broker — returns `false` and leaves `A`'s whole state
(hence every queue) unchanged. -/
theorem c2_private_brokers (aidA nameA atypeA : String) (t0 t1 now : Nat)
    (mid : String) (payload : PyDict) (B : BaseAgentState)
    (hne : B.agent_id ≠ aidA) :
    agent_send_message mid now B.agent_id payload
        (agent_start t1 (init_base_agent aidA nameA atypeA t0))
      = (false, agent_start t1 (init_base_agent aidA nameA atypeA t0)) := by
  have hcon : dict_contains B.agent_id
      (agent_start t1 (init_base_agent aidA nameA atypeA t0)).a2a.agents = false := by
    simp [agent_start, init_base_agent, register_agent, self_ref, empty_a2a,
      dict_insert, dict_contains]
    exact fun h => hne h.symm
  simp only [agent_send_message, a2a_send_message, agent_send_envelope]
  rw [hcon]
  rfl

/-- C2 witness: a concrete fresh agent cannot reach a concrete started peer. -/
theorem c2_private_brokers_witness :
    ((agent_start 1 (init_base_agent "b1" "B" "baseagent" 0)).agent_id ≠ "a1")
    ∧ agent_send_message "m1" 2 (agent_start 1 (init_base_agent "b1" "B" "baseagent" 0)).agent_id []
        (agent_start 1 (init_base_agent "a1" "A" "baseagent" 0))
      = (false, agent_start 1 (init_base_agent "a1" "A" "baseagent" 0)) :=
  ⟨by decide,
   c2_private_brokers "a1" "A" "baseagent" 0 1 2 "m1" []
     (agent_start 1 (init_base_agent "b1" "B" "baseagent" 0)) (by decide)⟩

/-- C3: task dispatch always recovers.  From an `active` agent, after
`_handle_task_message` the status is `active` and `current_task` is `None`,
whether the `process_task` hook returns normally (`Except.ok`) or raises
(`Except.error`): the `finally` block restores both fields. -/
theorem c3_dispatch_recovery (h : PyDict → Except String PyDict) (mid : String)
    (now retention : Nat) (msg : AgentMessage) (st : BaseAgentState)
    (hact : st.status = AgentStatus.active) :
    (handle_task_message h mid now retention msg st).status = AgentStatus.active
    ∧ (handle_task_message h mid now retention msg st).current_task = none := by
  simp only [handle_task_message, hact]
  cases h msg.content <;> simp

/-- C3 witness: recovery at a concrete agent, once with a succeeding hook
and once with a raising hook. -/
theorem c3_dispatch_recovery_witness :
    ((agent_start 1 (init_base_agent "a1" "A" "baseagent" 0)).status = AgentStatus.active)
    ∧ ((handle_task_message (fun _ => Except.ok []) "m1" 2 30
          ⟨"t1", "a0", "a1", "task", [], 2, 1, none⟩
          (agent_start 1 (init_base_agent "a1" "A" "baseagent" 0))).status
        = AgentStatus.active
       ∧ (handle_task_message (fun _ => Except.ok []) "m1" 2 30
          ⟨"t1", "a0", "a1", "task", [], 2, 1, none⟩
          (agent_start 1 (init_base_agent "a1" "A" "baseagent" 0))).current_task = none)
    ∧ ((handle_task_message (fun _ => Except.error "boom") "m1" 2 30
          ⟨"t1", "a0", "a1", "task", [], 2, 1, none⟩
          (agent_start 1 (init_base_agent "a1" "A" "baseagent" 0))).status
        = AgentStatus.active
       ∧ (handle_task_message (fun _ => Except.error "boom") "m1" 2 30
          ⟨"t1", "a0", "a1", "task", [], 2, 1, none⟩
          (agent_start 1 (init_base_agent "a1" "A" "baseagent" 0))).current_task = none) :=
  ⟨rfl,
   c3_dispatch_recovery (fun _ => Except.ok []) "m1" 2 30
     ⟨"t1", "a0", "a1", "task", [], 2, 1, none⟩
     (agent_start 1 (init_base_agent "a1" "A" "baseagent" 0)) rfl,
   c3_dispatch_recovery (fun _ => Except.error "boom") "m1" 2 30
     ⟨"t1", "a0", "a1", "task", [], 2, 1, none⟩
     (agent_start 1 (init_base_agent "a1" "A" "baseagent" 0)) rfl⟩

/-! ## Claims about registration (C6) -/

/-- Inserting the same key-value pair twice equals inserting it once. -/
theorem dict_insert_insert (k : String) (v : AgentInfo)
    (l : List (String × AgentInfo)) :
    dict_insert k v (dict_insert k v l) = dict_insert k v l := by
  induction l with
  | nil => simp [dict_insert]
  | cons p rest ih =>
      obtain ⟨k', v'⟩ := p
      by_cases hk : k' = k <;> simp [dict_insert, hk, ih]

/-- C6 (amended): registering the same agent twice returns `true` both
times and leaves the agent-record dict and all mailboxes exactly as after a
single registration — but the type index is NOT restored: the second call
appends the agent id to `agent_types[agent_type]` again, leaving a
duplicate entry. -/
theorem c6_register_twice (now : Nat) (a : AgentRef) (s : A2AState) :
    (register_agent now a s).fst = true
    ∧ (register_agent now a (register_agent now a s).snd).fst = true
    ∧ (register_agent now a (register_agent now a s).snd).snd.agents
      = (register_agent now a s).snd.agents
    ∧ (register_agent now a (register_agent now a s).snd).snd.message_queues
      = (register_agent now a s).snd.message_queues
    ∧ (register_agent now a (register_agent now a s).snd).snd.agent_types a.agent_type
      = (register_agent now a s).snd.agent_types a.agent_type ++ [a.agent_id] := by
  refine ⟨rfl, rfl, ?_, rfl, ?_⟩
  · simp [register_agent, dict_insert_insert]
  · simp [register_agent]

/-- C6 counterexample to the claim as stated: after two registrations of the
same agent, the broker state differs from the single-registration state —
the type index holds the agent id twice. -/
theorem c6_counterexample :
    (register_agent 0 ⟨"a1", "A", "baseagent", AgentStatus.idle⟩
        (register_agent 0 ⟨"a1", "A", "baseagent", AgentStatus.idle⟩ empty_a2a).snd).snd.agent_types "baseagent"
      = ["a1", "a1"]
    ∧ (register_agent 0 ⟨"a1", "A", "baseagent", AgentStatus.idle⟩ empty_a2a).snd.agent_types "baseagent"
      = ["a1"]
    ∧ (["a1", "a1"] : List String) ≠ ["a1"] := by
  refine ⟨by decide, by decide, by decide⟩

/-! ## Claims about the message model (C9) -/

/-- C9 (amended): the default priority of `AgentMessage` is 1, the low end
of the bounded range — not the mid-range value 3 — and every message that
passes construction has its priority within `1..5`. -/
theorem c9_priority_default_and_bounds :
    priority_default = 1
    ∧ (∀ mid sender recipient mtype content ts,
        (mk_agent_message_default mid sender recipient mtype content ts).map
            (fun m => m.priority) = some 1)
    ∧ (∀ mid sender recipient mtype content ts p e m,
        mk_agent_message mid sender recipient mtype content ts p e = some m →
        1 ≤ m.priority ∧ m.priority ≤ 5) := by
  refine ⟨rfl, fun _ _ _ _ _ _ => rfl, ?_⟩
  intro mid sender recipient mtype content ts p e m hm
  unfold mk_agent_message at hm
  split at hm
  next hcond =>
    cases hm
    exact hcond
  next => cases hm

/-- C9 witness: bounds at a concretely constructed message. -/
theorem c9_priority_default_and_bounds_witness :
    (mk_agent_message "m1" "a0" "a1" "task" [] 0 4 none).map (fun m => m.priority)
      = some 4
    ∧ (1 ≤ (4 : Int) ∧ (4 : Int) ≤ 5) :=
  ⟨rfl,
   (c9_priority_default_and_bounds.2.2 "m1" "a0" "a1" "task" [] 0 4 none
     ⟨"m1", "a0", "a1", "task", [], 0, 4, none⟩ rfl)⟩

/-- C9 counterexample to the claim as stated: the default priority is 1,
which is not the mid-range value `(1 + 5) / 2 = 3` of the `1..5` range. -/
theorem c9_counterexample :
    (mk_agent_message_default "m1" "a0" "a1" "task" [] 0).map (fun m => m.priority)
      = some 1
    ∧ priority_default ≠ (1 + 5) / 2 := by
  refine ⟨rfl, by decide⟩

/-! ## Claims about broadcast (C7) -/

/-- Deduplication is the identity on a duplicate-free list. -/
theorem remove_duplicates_of_nodup :
    ∀ l : List String, l.Nodup → remove_duplicates l = l := by
  intro l
  induction l with
  | nil => intro _; simp [remove_duplicates]
  | cons x xs ih =>
      intro h
      have hx : x ∉ xs := (List.nodup_cons.mp h).1
      have hf : xs.filter (fun y => !(y == x)) = xs := by
        apply List.filter_eq_self.mpr
        intro y hy
        have hne : y ≠ x := fun he => hx (he ▸ hy)
        simp [hne]
      simp only [remove_duplicates, hf]
      rw [ih (List.nodup_cons.mp h).2]

/-- Removing the occurrences of one present element of a duplicate-free
list shortens it by exactly one. -/
theorem length_filter_ne :
    ∀ (l : List String) (x : String), l.Nodup → x ∈ l →
      (l.filter (fun y => !(y == x))).length = l.length - 1 := by
  intro l
  induction l with
  | nil => intro x _ hx; cases hx
  | cons a as ih =>
      intro x hnd hx
      rcases List.mem_cons.mp hx with he | hx'
      · subst he
        have hna : x ∉ as := (List.nodup_cons.mp hnd).1
        have hf : as.filter (fun y => !(y == x)) = as := by
          apply List.filter_eq_self.mpr
          intro y hy
          have hne : y ≠ x := fun he2 => hna (he2 ▸ hy)
          simp [hne]
        simp [List.filter_cons, hf]
      · have hax : a ≠ x := by
          rintro rfl
          exact (List.nodup_cons.mp hnd).1 hx'
        have hlen : 1 ≤ as.length := List.length_pos.mpr (List.ne_nil_of_mem hx')
        have hrec := ih x (List.nodup_cons.mp hnd).2 hx'
        simp [List.filter_cons, hax, hrec]
        omega

/-- The broadcast loop counts exactly one send per target. -/
theorem broadcast_loop_count (ids : Nat → String) (now : Nat) (sender : String)
    (content : PyDict) :
    ∀ (ts : List String) (i : Nat) (s : A2AState),
      (broadcast_loop ids now sender content ts i s).fst = ts.length := by
  intro ts
  induction ts with
  | nil => intro i s; rfl
  | cons b rest ih => intro i s; simp [broadcast_loop, ih]

/-- The broadcast loop does not touch the queue of an agent that is not a
target. -/
theorem broadcast_loop_queue_of_not_mem (ids : Nat → String) (now : Nat)
    (sender : String) (content : PyDict) :
    ∀ (ts : List String) (i : Nat) (s : A2AState) (aid : String), aid ∉ ts →
      (broadcast_loop ids now sender content ts i s).snd.message_queues aid
        = s.message_queues aid := by
  intro ts
  induction ts with
  | nil => intro i s aid _; rfl
  | cons b rest ih =>
      intro i s aid h
      have hnb : aid ≠ b := fun he => h (he ▸ List.mem_cons_self b rest)
      have hnr : aid ∉ rest := fun hm => h (List.mem_cons_of_mem _ hm)
      simp only [broadcast_loop]
      rw [ih _ _ aid hnr]
      simp [broadcast_enqueue, hnb]

/-- Each target of the broadcast loop receives exactly one new message,
appended to its queue: a broadcast envelope to it carrying the payload. -/
theorem broadcast_loop_queue_of_mem (ids : Nat → String) (now : Nat)
    (sender : String) (content : PyDict) :
    ∀ (ts : List String) (i : Nat) (s : A2AState) (aid : String),
      ts.Nodup → aid ∈ ts →
      ∃ mid, (broadcast_loop ids now sender content ts i s).snd.message_queues aid
        = s.message_queues aid ++ [mk_broadcast_message mid now sender aid content] := by
  intro ts
  induction ts with
  | nil => intro i s aid _ hm; cases hm
  | cons b rest ih =>
      intro i s aid hnd hm
      rcases List.mem_cons.mp hm with he | hm'
      · subst he
        have hnb : aid ∉ rest := (List.nodup_cons.mp hnd).1
        refine ⟨ids i, ?_⟩
        simp only [broadcast_loop]
        rw [broadcast_loop_queue_of_not_mem ids now sender content rest _ _ aid hnb]
        simp [broadcast_enqueue]
      · have hb : aid ≠ b := by
          rintro rfl
          exact (List.nodup_cons.mp hnd).1 hm'
        obtain ⟨mid, hq⟩ := ih (i + 1)
          (broadcast_enqueue (mk_broadcast_message (ids i) now sender b content) b s)
          aid (List.nodup_cons.mp hnd).2 hm'
        refine ⟨mid, ?_⟩
        simp only [broadcast_loop]
        rw [hq]
        simp [broadcast_enqueue, hb]

/-- `broadcast_message` with no type filter reduces to the send loop over
the deduplicated non-sender registered ids. -/
theorem broadcast_message_none_eq (ids : Nat → String) (now : Nat)
    (sender_id : String) (content : PyDict) (s : A2AState) :
    broadcast_message ids now sender_id content none s
      = broadcast_loop ids now sender_id content
          (remove_duplicates
            ((dict_keys s.agents).filter (fun aid => !(aid == sender_id)))) 0 s := rfl

/-- C7: broadcasting with no type filter from a registered sender over a
broker whose agent dict has (as Python dicts do) duplicate-free keys sends
to exactly `N - 1` agents, appends exactly one broadcast envelope carrying
the payload to every registered non-sender mailbox, and leaves the
sender's mailbox untouched. -/
theorem c7_broadcast_all_but_sender (ids : Nat → String) (now : Nat)
    (sender : String) (content : PyDict) (s : A2AState)
    (hnd : (dict_keys s.agents).Nodup)
    (hs : sender ∈ dict_keys s.agents) :
    (broadcast_message ids now sender content none s).fst = s.agents.length - 1
    ∧ (∀ aid ∈ dict_keys s.agents, aid ≠ sender →
        ∃ mid, (broadcast_message ids now sender content none s).snd.message_queues aid
          = s.message_queues aid
            ++ [mk_broadcast_message mid now sender aid content])
    ∧ (broadcast_message ids now sender content none s).snd.message_queues sender
      = s.message_queues sender := by
  have htnd : ((dict_keys s.agents).filter (fun aid => !(aid == sender))).Nodup :=
    hnd.filter _
  have hdedup : remove_duplicates ((dict_keys s.agents).filter (fun aid => !(aid == sender)))
      = (dict_keys s.agents).filter (fun aid => !(aid == sender)) :=
    remove_duplicates_of_nodup _ htnd
  refine ⟨?_, ?_, ?_⟩
  · rw [broadcast_message_none_eq]
    simp only [hdedup, broadcast_loop_count]
    rw [length_filter_ne _ sender hnd hs]
    simp [dict_keys]
  · intro aid haid hne
    have hmem : aid ∈ (dict_keys s.agents).filter (fun a => !(a == sender)) := by
      simp [List.mem_filter, haid, hne]
    rw [broadcast_message_none_eq]
    simp only [hdedup]
    exact broadcast_loop_queue_of_mem ids now sender content _ 0 s aid htnd hmem
  · have hnot : sender ∉ (dict_keys s.agents).filter (fun a => !(a == sender)) := by
      simp [List.mem_filter]
    rw [broadcast_message_none_eq]
    simp only [hdedup]
    exact broadcast_loop_queue_of_not_mem ids now sender content _ 0 s sender hnot

/-- C7 witness: a concrete broker with two registered agents; the sender
reaches exactly the one other agent. -/
theorem c7_broadcast_all_but_sender_witness :
    ((dict_keys (register_agent 0 ⟨"a2", "B", "baseagent", AgentStatus.active⟩
        (register_agent 0 ⟨"a1", "A", "baseagent", AgentStatus.active⟩ empty_a2a).snd).snd.agents).Nodup
      ∧ "a1" ∈ dict_keys (register_agent 0 ⟨"a2", "B", "baseagent", AgentStatus.active⟩
        (register_agent 0 ⟨"a1", "A", "baseagent", AgentStatus.active⟩ empty_a2a).snd).snd.agents)
    ∧ ((broadcast_message (fun _ => "bid") 5 "a1" []
          none
          (register_agent 0 ⟨"a2", "B", "baseagent", AgentStatus.active⟩
            (register_agent 0 ⟨"a1", "A", "baseagent", AgentStatus.active⟩ empty_a2a).snd).snd).fst
        = (register_agent 0 ⟨"a2", "B", "baseagent", AgentStatus.active⟩
            (register_agent 0 ⟨"a1", "A", "baseagent", AgentStatus.active⟩ empty_a2a).snd).snd.agents.length - 1
       ∧ (∀ aid ∈ dict_keys (register_agent 0 ⟨"a2", "B", "baseagent", AgentStatus.active⟩
            (register_agent 0 ⟨"a1", "A", "baseagent", AgentStatus.active⟩ empty_a2a).snd).snd.agents,
            aid ≠ "a1" →
            ∃ mid, (broadcast_message (fun _ => "bid") 5 "a1" [] none
                (register_agent 0 ⟨"a2", "B", "baseagent", AgentStatus.active⟩
                  (register_agent 0 ⟨"a1", "A", "baseagent", AgentStatus.active⟩ empty_a2a).snd).snd).snd.message_queues aid
              = (register_agent 0 ⟨"a2", "B", "baseagent", AgentStatus.active⟩
                  (register_agent 0 ⟨"a1", "A", "baseagent", AgentStatus.active⟩ empty_a2a).snd).snd.message_queues aid
                ++ [mk_broadcast_message mid 5 "a1" aid []])
       ∧ (broadcast_message (fun _ => "bid") 5 "a1" [] none
            (register_agent 0 ⟨"a2", "B", "baseagent", AgentStatus.active⟩
              (register_agent 0 ⟨"a1", "A", "baseagent", AgentStatus.active⟩ empty_a2a).snd).snd).snd.message_queues "a1"
          = (register_agent 0 ⟨"a2", "B", "baseagent", AgentStatus.active⟩
              (register_agent 0 ⟨"a1", "A", "baseagent", AgentStatus.active⟩ empty_a2a).snd).snd.message_queues "a1") :=
  ⟨⟨by decide, by decide⟩,
   c7_broadcast_all_but_sender (fun _ => "bid") 5 "a1" []
     (register_agent 0 ⟨"a2", "B", "baseagent", AgentStatus.active⟩
       (register_agent 0 ⟨"a1", "A", "baseagent", AgentStatus.active⟩ empty_a2a).snd).snd
     (by decide) (by decide)⟩

/-! ## Claims about episodic memory ids (C8) -/

/-- C8 (amended): `store_episodic_memory` assigns the id
`len(episodic_memory) + 1`.  As long as no entry has ever been pruned —
every retained entry's id is at most the list length, as holds for a purely
appended history — the new entry's id is strictly greater than every
retained id, and if the current write prunes nothing the same invariant
holds afterwards.  (After a pruning write shrinks the list, ids repeat; see
the counterexample.) -/
theorem c8_episodic_id_growth (retention now : Nat) (aid : String)
    (data : PyDict) (mem : List EpisodicEntry)
    (hids : ∀ e ∈ mem, e.id ≤ mem.length)
    (hnow : 1 ≤ now) (hret : 1 ≤ retention) :
    ((⟨mem.length + 1, now, aid, data⟩ : EpisodicEntry)
        ∈ store_episodic_memory retention now aid data mem)
    ∧ (∀ e ∈ mem, e.id < mem.length + 1)
    ∧ ((∀ e ∈ mem, now - retention < e.timestamp) →
        ∀ e ∈ store_episodic_memory retention now aid data mem,
          e.id ≤ (store_episodic_memory retention now aid data mem).length) := by
  have hcut : now - retention < now := by omega
  refine ⟨?_, ?_, ?_⟩
  · unfold store_episodic_memory cleanup_old_memories
    refine List.mem_filter.mpr ⟨List.mem_append_right _ (List.mem_singleton.mpr rfl), ?_⟩
    simpa using hcut
  · intro e he
    exact Nat.lt_succ_of_le (hids e he)
  · intro hkeep
    have hall : cleanup_old_memories (now - retention)
        (mem ++ [⟨mem.length + 1, now, aid, data⟩])
        = mem ++ [⟨mem.length + 1, now, aid, data⟩] := by
      unfold cleanup_old_memories
      apply List.filter_eq_self.mpr
      intro e he
      rcases List.mem_append.mp he with hm | hm
      · simpa using hkeep e hm
      · rw [List.mem_singleton.mp hm]
        simpa using hcut
    unfold store_episodic_memory
    rw [hall]
    intro e he
    rcases List.mem_append.mp he with hm | hm
    · have := hids e hm
      simp only [List.length_append, List.length_singleton]
      omega
    · rw [List.mem_singleton.mp hm]
      simp

/-- C8 witness: storing into a never-pruned memory yields a strictly larger
id and preserves the invariant. -/
theorem c8_episodic_id_growth_witness :
    ((∀ e ∈ ([⟨1, 90, "a1", []⟩] : List EpisodicEntry), e.id ≤ 1)
      ∧ 1 ≤ (100 : Nat) ∧ 1 ≤ (30 : Nat))
    ∧ (((⟨2, 100, "a1", []⟩ : EpisodicEntry)
          ∈ store_episodic_memory 30 100 "a1" [] [⟨1, 90, "a1", []⟩])
       ∧ (∀ e ∈ ([⟨1, 90, "a1", []⟩] : List EpisodicEntry), e.id < 2)
       ∧ ((∀ e ∈ ([⟨1, 90, "a1", []⟩] : List EpisodicEntry), 100 - 30 < e.timestamp) →
           ∀ e ∈ store_episodic_memory 30 100 "a1" [] [⟨1, 90, "a1", []⟩],
             e.id ≤ (store_episodic_memory 30 100 "a1" [] [⟨1, 90, "a1", []⟩]).length)) :=
  ⟨⟨by simp, by omega, by omega⟩,
   c8_episodic_id_growth 30 100 "a1" [] [⟨1, 90, "a1", []⟩]
     (by simp) (by omega) (by omega)⟩

/-- C8 counterexample to the claim as stated: three stores at days 10, 100
and 101 with a 30-day retention window.  The second store prunes the first
entry, so the third store reuses id 2 — not strictly greater than the id 2
assigned by the second store. -/
theorem c8_counterexample :
    store_episodic_memory 30 101 "a1" []
        (store_episodic_memory 30 100 "a1" []
          (store_episodic_memory 30 10 "a1" [] []))
      = [⟨2, 100, "a1", []⟩, ⟨2, 101, "a1", []⟩]
    ∧ ¬ (2 : Nat) > 2 := by
  refine ⟨rfl, by omega⟩

/-! ## Claims about envelope types (C10) -/

/-- Any message found in a queue after `send_message` was either already
there or is the very message that was sent. -/
theorem mem_queues_after_send (m msg : AgentMessage) (s : A2AState) (aid : String)
    (hm : m ∈ (a2a_send_message msg s).snd.message_queues aid) :
    m ∈ s.message_queues aid ∨ m = msg := by
  unfold a2a_send_message at hm
  split at hm
  · by_cases haid : aid = msg.recipient_id
    · simp only [haid, if_pos] at hm
      rcases List.mem_append.mp hm with h | h
      · exact Or.inl (by simpa [haid] using h)
      · exact Or.inr (List.mem_singleton.mp h)
    · simp only [haid, if_neg, if_false] at hm
      exact Or.inl hm
  · exact Or.inl hm

/-- C10: every envelope the runtime sends through `BaseAgent.send_message`
has `message_type = "task"`, whatever the payload says; in particular the
`task_result` / `task_error` replies of task dispatch and the
`status_response` reply of status handling are delivered inside `"task"`
envelopes — any message a handler adds to any queue is a `"task"`
envelope. -/
theorem c10_runtime_sends_task_envelopes :
    (∀ mid now sender recipient content,
      (agent_send_envelope mid now sender recipient content).message_type = "task")
    ∧ (∀ h mid now retention msg st aid m,
        m ∈ (handle_task_message h mid now retention msg st).a2a.message_queues aid →
        m ∈ st.a2a.message_queues aid ∨ m.message_type = "task")
    ∧ (∀ mid now msg st aid m,
        m ∈ (handle_status_message mid now msg st).a2a.message_queues aid →
        m ∈ st.a2a.message_queues aid ∨ m.message_type = "task") := by
  refine ⟨fun _ _ _ _ _ => rfl, ?_, ?_⟩
  · intro h mid now retention msg st aid m hm
    rw [handle_task_message] at hm
    split at hm
    · exact Or.inl hm
    · cases hh : h msg.content with
      | ok result =>
          rw [hh] at hm
          simp only [agent_send_message] at hm
          rcases mem_queues_after_send m _ _ aid hm with h1 | h1
          · exact Or.inl h1
          · exact Or.inr (by rw [h1]; rfl)
      | error e =>
          rw [hh] at hm
          simp only [agent_send_message] at hm
          rcases mem_queues_after_send m _ _ aid hm with h1 | h1
          · exact Or.inl h1
          · exact Or.inr (by rw [h1]; rfl)
  · intro mid now msg st aid m hm
    rw [handle_status_message] at hm
    simp only [agent_send_message] at hm
    rcases mem_queues_after_send m _ _ aid hm with h1 | h1
    · exact Or.inl h1
    · exact Or.inr (by rw [h1]; rfl)

/-- C10 witness: the constructed envelope at concrete arguments is a
`"task"` envelope. -/
theorem c10_runtime_sends_task_envelopes_witness :
    (agent_send_envelope "m1" 3 "a1" "a2"
        [("type", PyVal.vStr "task_result")]).message_type = "task" :=
  c10_runtime_sends_task_envelopes.1 "m1" 3 "a1" "a2"
    [("type", PyVal.vStr "task_result")]
